import Mathlib

/-!
Verification of the boogie-stats scoring/leaderboard core
(`boogiestats/boogie_api/managers.py` and `boogiestats/boogie_api/models.py`).

The Django ORM tables are embedded shallowly: the Score table is a
`List ScoreRow` (primary keys are allocated as the current table length,
submission timestamps are modelled by the same monotone counter), the Player
table is a `List PlayerRow`, and each queryset operation of the source is
translated to the corresponding list operation (`filter`, `find?`,
`insertionSort` for `order_by`, `take` for slicing).
-/

namespace BoogieStats

/-- One row of the Score table (`Score` model in `models.py`). -/
structure ScoreRow where
  pk : Nat
  song : Nat
  player : Nat
  score : Int
  submission_date : Nat
  comment : String
  profile_name : String
  is_top : Bool
deriving Repr, DecidableEq

/-- One row of the Player table (`Player` model in `models.py`); `rivals` holds
the ids of the (directional) rival players. -/
structure PlayerRow where
  id : Nat
  api_key : String
  machine_tag : String
  name : Option String
  rivals : List Nat
deriving Repr, DecidableEq

/-- The dictionary built by `make_leaderboard_entry` in `models.py`
(`date` keeps the raw timestamp instead of the `strftime` rendering). -/
structure LeaderboardEntry where
  rank : Nat
  name : String
  score : Int
  date : Nat
  isSelf : Bool
  isRival : Bool
  isFail : Bool
  machineTag : String
deriving Repr, DecidableEq

/-- `MAX_LEADERBOARD_RIVALS` from `models.py`. -/
def MAX_LEADERBOARD_RIVALS : Nat := 3

/-- `MAX_LEADERBOARD_ENTRIES` from `models.py`. -/
def MAX_LEADERBOARD_ENTRIES : Nat := 50

/-- The filter `song.scores.get(player=player, is_top=True)` /
`scores.filter(is_top=True, ...)` use on rows. -/
def matches_top (song player : Nat) (r : ScoreRow) : Bool :=
  r.song == song && r.player == player && r.is_top

/-- `previous_top.is_top = False; previous_top.save()`: an ORM save writes the
row with the saved object's primary key, leaving every other row unchanged. -/
def demoteIfPk (pkv : Nat) (r : ScoreRow) : ScoreRow :=
  if r.pk == pkv then { r with is_top := false } else r

/-- `ScoreManager.create` from `managers.py`: look up the previous top for the
(song, player) pair; if it exists and its score is strictly lower, demote it
(`previous_top.is_top = False; previous_top.save()`); then insert the new row
with the computed `is_top`.  The new row's primary key and timestamp are the
current table length. -/
def create (db : List ScoreRow) (song player : Nat) (score : Int)
    (comment profile_name : String) : List ScoreRow :=
  match db.find? (matches_top song player) with
  | none =>
      db ++ [⟨db.length, song, player, score, db.length, comment, profile_name, true⟩]
  | some previous_top =>
      if previous_top.score < score then
        db.map (demoteIfPk previous_top.pk)
          ++ [⟨db.length, song, player, score, db.length, comment, profile_name, true⟩]
      else
        db ++ [⟨db.length, song, player, score, db.length, comment, profile_name, false⟩]

/-- A submission handed to `ScoreManager.create`. -/
structure Submission where
  song : Nat
  player : Nat
  score : Int
  comment : String
  profile_name : String
deriving Repr, DecidableEq

/-- Run a sequence of submissions through `ScoreManager.create`, starting from
an empty Score table. -/
def runCreates (subs : List Submission) : List ScoreRow :=
  subs.foldl (fun db s => create db s.song s.player s.score s.comment s.profile_name) []

/-- All rows of the (song, player) pair. -/
def pairScores (db : List ScoreRow) (song player : Nat) : List ScoreRow :=
  db.filter fun r => r.song == song && r.player == player

/-- All top-flagged rows of the (song, player) pair. -/
def topScores (db : List ScoreRow) (song player : Nat) : List ScoreRow :=
  db.filter (matches_top song player)

/-- The score values submitted for the (song, player) pair, in order. -/
def submittedScores (subs : List Submission) (song player : Nat) : List Int :=
  (subs.filter fun x => x.song == song && x.player == player).map fun x => x.score

/-- `Score.rank` from `models.py`: one plus the number of top-flagged rows of
the same song whose score is strictly greater. -/
def rank (db : List ScoreRow) (s : ScoreRow) : Nat :=
  (db.filter fun q => q.song == s.song && q.is_top && decide (s.score < q.score)).length + 1

/-- The row order produced by `.order_by("-score", "-submission_date")`. -/
def rowOrder (a b : ScoreRow) : Prop :=
  b.score < a.score ∨ (a.score = b.score ∧ b.submission_date ≤ a.submission_date)

instance : DecidableRel rowOrder := fun a b => by
  unfold rowOrder; exact inferInstance

instance : IsTotal ScoreRow rowOrder := by
  constructor
  intro a b
  rcases lt_trichotomy a.score b.score with h | h | h
  · exact Or.inr (Or.inl h)
  · rcases Nat.le_total a.submission_date b.submission_date with hd | hd
    · exact Or.inr (Or.inr ⟨h.symm, hd⟩)
    · exact Or.inl (Or.inr ⟨h, hd⟩)
  · exact Or.inl (Or.inl h)

instance : IsTrans ScoreRow rowOrder := by
  constructor
  intro a b c hab hbc
  rcases hab with h1 | ⟨h1, d1⟩ <;> rcases hbc with h2 | ⟨h2, d2⟩
  · exact Or.inl (h2.trans h1)
  · exact Or.inl (h2 ▸ h1)
  · exact Or.inl (h1 ▸ h2)
  · exact Or.inr ⟨h1.trans h2, d2.trans d1⟩

/-- The order used by the final `sorted(scores, key=lambda x: x["score"],
reverse=True)`: score descending. -/
def entryOrder (a b : LeaderboardEntry) : Prop :=
  b.score ≤ a.score

instance : DecidableRel entryOrder := fun a b => by
  unfold entryOrder; exact inferInstance

instance : IsTotal LeaderboardEntry entryOrder :=
  ⟨fun a b => (le_total b.score a.score).imp id id⟩

instance : IsTrans LeaderboardEntry entryOrder :=
  ⟨fun _ _ _ hab hbc => le_trans hbc hab⟩

/-- Resolve a Score row's `player` foreign key in the Player table. -/
def findPlayer (players : List PlayerRow) (pid : Nat) : PlayerRow :=
  (players.find? fun p => p.id == pid).getD ⟨0, "", "", none, []⟩

/-- Python `a or b` on an optional string: `None` and `""` are falsy. -/
def nameOr (a : Option String) (b : String) : String :=
  match a with
  | none => b
  | some s => if s = "" then b else s

/-- `make_leaderboard_entry` from `models.py`. -/
def make_leaderboard_entry (players : List PlayerRow) (rk : Nat) (s : ScoreRow)
    (is_rival is_self : Bool) : LeaderboardEntry :=
  let p := findPlayer players s.player
  { rank := rk
    name := nameOr p.name p.machine_tag
    score := s.score
    date := s.submission_date
    isSelf := is_self
    isRival := is_rival
    isFail := false
    machineTag := p.machine_tag }

/-- `Song.get_highscore` from `models.py`: the viewing player's top row and its
rank, or `none` (`(None, None)` in the source). -/
def get_highscore (db : List ScoreRow) (song pid : Nat) : Option (Nat × ScoreRow) :=
  match db.find? (matches_top song pid) with
  | none => none
  | some s => some (rank db s, s)

/-- `Song.get_rival_highscores` from `models.py`: the rivals' top rows for the
song, ordered by score then submission date descending, first three, each
paired with its rank. -/
def get_rival_highscores (db : List ScoreRow) (song : Nat) (p : PlayerRow) :
    List (Nat × ScoreRow) :=
  let rows := (List.insertionSort rowOrder
      (db.filter fun r => r.is_top && p.rivals.contains r.player && r.song == song)).take
      MAX_LEADERBOARD_RIVALS
  rows.map fun r => (rank db r, r)

/-- The self/rival accumulation phase of `Song.get_leaderboard` (the
`if player:` block): the emitted entries and the used primary keys. -/
def leaderboard_pre (db : List ScoreRow) (players : List PlayerRow) (song : Nat)
    (viewer : Option PlayerRow) : List LeaderboardEntry × List Nat :=
  match viewer with
  | none => ([], [])
  | some p =>
    let selfPart : List LeaderboardEntry × List Nat :=
      match get_highscore db song p.id with
      | none => ([], [])
      | some (rk, s) => ([make_leaderboard_entry players rk s false true], [s.pk])
    let rl := get_rival_highscores db song p
    (selfPart.1 ++ rl.map fun x => make_leaderboard_entry players x.1 x.2 true false,
     selfPart.2 ++ rl.map fun x => x.2.pk)

/-- `Song.get_leaderboard` from `models.py`. -/
def get_leaderboard (db : List ScoreRow) (players : List PlayerRow) (song : Nat)
    (num_entries : Nat) (viewer : Option PlayerRow) : List LeaderboardEntry :=
  let n := min MAX_LEADERBOARD_ENTRIES num_entries
  let pre := leaderboard_pre db players song viewer
  let remaining := n - pre.1.length
  let top_scores := (List.insertionSort rowOrder
      (db.filter fun r => r.song == song && r.is_top && !(pre.2.contains r.pk))).take remaining
  let entries := pre.1 ++ top_scores.map fun s => make_leaderboard_entry players (rank db s) s false false
  List.insertionSort entryOrder entries

/-! ### The database invariant maintained by `ScoreManager.create` -/

/-- Invariant of the Score table: primary keys are pairwise distinct and below
the table length (so a fresh key is available), each (song, player) pair has at
most one top-flagged row, that row's score bounds every score of the pair, and
a pair with any row at all has a top-flagged row. -/
def Inv (db : List ScoreRow) : Prop :=
  List.Pairwise (fun r q => r.pk ≠ q.pk) db ∧
  (∀ r ∈ db, r.pk < db.length) ∧
  (∀ r ∈ db, ∀ q ∈ db, r.song = q.song → r.player = q.player →
    r.is_top = true → q.is_top = true → r = q) ∧
  (∀ r ∈ db, ∀ q ∈ db, r.song = q.song → r.player = q.player →
    r.is_top = true → q.score ≤ r.score) ∧
  (∀ q ∈ db, ∃ r ∈ db, r.song = q.song ∧ r.player = q.player ∧ r.is_top = true)

instance : DecidablePred Inv := fun db => by
  unfold Inv; exact inferInstance

theorem matches_top_iff {song player : Nat} {r : ScoreRow} :
    matches_top song player r = true ↔
      r.song = song ∧ r.player = player ∧ r.is_top = true := by
  simp [matches_top, Bool.and_assoc, and_assoc]

theorem pk_unique {db : List ScoreRow}
    (hpw : List.Pairwise (fun r q => r.pk ≠ q.pk) db)
    {r q : ScoreRow} (hr : r ∈ db) (hq : q ∈ db) (hpk : r.pk = q.pk) : r = q := by
  by_contra hne
  exact List.Pairwise.forall (fun a b h => (h ∘ Eq.symm)) hpw hr hq hne hpk

theorem demoteIfPk_pk (pkv : Nat) (r : ScoreRow) : (demoteIfPk pkv r).pk = r.pk := by
  unfold demoteIfPk; split <;> rfl

theorem demoteIfPk_song (pkv : Nat) (r : ScoreRow) : (demoteIfPk pkv r).song = r.song := by
  unfold demoteIfPk; split <;> rfl

theorem demoteIfPk_player (pkv : Nat) (r : ScoreRow) :
    (demoteIfPk pkv r).player = r.player := by
  unfold demoteIfPk; split <;> rfl

theorem demoteIfPk_score (pkv : Nat) (r : ScoreRow) :
    (demoteIfPk pkv r).score = r.score := by
  unfold demoteIfPk; split <;> rfl

theorem demoteIfPk_of_ne {pkv : Nat} {r : ScoreRow} (h : r.pk ≠ pkv) :
    demoteIfPk pkv r = r := by
  unfold demoteIfPk
  simp [h]

theorem demoteIfPk_self (p : ScoreRow) : demoteIfPk p.pk p = { p with is_top := false } := by
  unfold demoteIfPk
  simp

/-- For a row of the table, demotion either hits exactly the saved row or
leaves the row unchanged. -/
theorem demote_cases {db : List ScoreRow}
    (hpw : List.Pairwise (fun r q => r.pk ≠ q.pk) db)
    {p : ScoreRow} (hp : p ∈ db) {q : ScoreRow} (hq : q ∈ db) :
    (q = p ∧ demoteIfPk p.pk q = { p with is_top := false }) ∨
      (q ≠ p ∧ demoteIfPk p.pk q = q) := by
  by_cases hqp : q = p
  · subst hqp
    exact Or.inl ⟨rfl, demoteIfPk_self q⟩
  · refine Or.inr ⟨hqp, demoteIfPk_of_ne ?_⟩
    intro hpk
    exact hqp (pk_unique hpw hq hp hpk)

/-- `create`, branch without a previous top: the appended row becomes the
pair's unique top. -/
theorem inv_append_top {db : List ScoreRow} {song player : Nat} {score : Int}
    {c pn : String} (hInv : Inv db)
    (hno : ∀ r ∈ db, ¬ matches_top song player r = true) :
    Inv (db ++ [⟨db.length, song, player, score, db.length, c, pn, true⟩]) := by
  obtain ⟨hpw, hblt, hone, hmax, hex⟩ := hInv
  have hnopair : ∀ r ∈ db, ¬ (r.song = song ∧ r.player = player) := by
    rintro r hr ⟨hs, hp⟩
    obtain ⟨t, ht, hts, htp, htt⟩ := hex r hr
    exact hno t ht (matches_top_iff.mpr ⟨hts.trans hs, htp.trans hp, htt⟩)
  refine ⟨?_, ?_, ?_, ?_, ?_⟩
  · rw [List.pairwise_append]
    refine ⟨hpw, List.pairwise_singleton _ _, ?_⟩
    intro a ha b hb
    rw [List.mem_singleton] at hb
    subst hb
    intro h
    have := hblt a ha
    simp only [h] at this
    exact absurd this (lt_irrefl _)
  · intro r hr
    rcases List.mem_append.mp hr with hr | hr
    · calc r.pk < db.length := hblt r hr
        _ < (db ++ [(⟨db.length, song, player, score, db.length, c, pn, true⟩ : ScoreRow)]).length := by
          simp
    · rw [List.mem_singleton] at hr
      subst hr
      simp
  · intro r hr q hq hs hp hrt hqt
    rcases List.mem_append.mp hr with hr | hr <;> rcases List.mem_append.mp hq with hq | hq
    · exact hone r hr q hq hs hp hrt hqt
    · rw [List.mem_singleton] at hq
      subst hq
      exact absurd ⟨hs, hp⟩ (hnopair r hr)
    · rw [List.mem_singleton] at hr
      subst hr
      exact absurd ⟨hs.symm, hp.symm⟩ (hnopair q hq)
    · rw [List.mem_singleton] at hr hq
      rw [hr, hq]
  · intro r hr q hq hs hp hrt
    rcases List.mem_append.mp hr with hr | hr <;> rcases List.mem_append.mp hq with hq | hq
    · exact hmax r hr q hq hs hp hrt
    · rw [List.mem_singleton] at hq
      subst hq
      exact absurd ⟨hs, hp⟩ (hnopair r hr)
    · rw [List.mem_singleton] at hr
      subst hr
      exact absurd ⟨hs.symm, hp.symm⟩ (hnopair q hq)
    · rw [List.mem_singleton] at hr hq
      rw [hr, hq]
  · intro q hq
    rcases List.mem_append.mp hq with hq | hq
    · obtain ⟨t, ht, hts, htp, htt⟩ := hex q hq
      exact ⟨t, List.mem_append.mpr (Or.inl ht), hts, htp, htt⟩
    · rw [List.mem_singleton] at hq
      refine ⟨⟨db.length, song, player, score, db.length, c, pn, true⟩,
        List.mem_append.mpr (Or.inr (List.mem_singleton.mpr rfl)), ?_, ?_, rfl⟩
      · rw [hq]
      · rw [hq]

/-- `create`, branch with a previous top whose score is not beaten: the new row
is stored non-top and the previous top stays the pair's unique top. -/
theorem inv_append_nontop {db : List ScoreRow} {song player : Nat} {score : Int}
    {c pn : String} {p : ScoreRow} (hInv : Inv db) (hp : p ∈ db)
    (hps : matches_top song player p = true) (hge : score ≤ p.score) :
    Inv (db ++ [⟨db.length, song, player, score, db.length, c, pn, false⟩]) := by
  obtain ⟨hpw, hblt, hone, hmax, hex⟩ := hInv
  obtain ⟨hpsong, hpplayer, hptop⟩ := matches_top_iff.mp hps
  refine ⟨?_, ?_, ?_, ?_, ?_⟩
  · rw [List.pairwise_append]
    refine ⟨hpw, List.pairwise_singleton _ _, ?_⟩
    intro a ha b hb
    rw [List.mem_singleton] at hb
    subst hb
    intro h
    have := hblt a ha
    simp only [h] at this
    exact absurd this (lt_irrefl _)
  · intro r hr
    rcases List.mem_append.mp hr with hr | hr
    · calc r.pk < db.length := hblt r hr
        _ < (db ++ [(⟨db.length, song, player, score, db.length, c, pn, false⟩ : ScoreRow)]).length := by
          simp
    · rw [List.mem_singleton] at hr
      subst hr
      simp
  · intro r hr q hq hs hpl hrt hqt
    rcases List.mem_append.mp hr with hr | hr <;> rcases List.mem_append.mp hq with hq | hq
    · exact hone r hr q hq hs hpl hrt hqt
    · rw [List.mem_singleton] at hq
      subst hq
      exact absurd hqt (by simp)
    · rw [List.mem_singleton] at hr
      subst hr
      exact absurd hrt (by simp)
    · rw [List.mem_singleton] at hr hq
      rw [hr, hq]
  · intro r hr q hq hs hpl hrt
    rcases List.mem_append.mp hr with hr | hr <;> rcases List.mem_append.mp hq with hq | hq
    · exact hmax r hr q hq hs hpl hrt
    · -- q is the new row: r is the pair's top, hence r = p and score ≤ p.score
      rw [List.mem_singleton] at hq
      subst hq
      have hrp : r = p := by
        refine hone r hr p hp ?_ ?_ hrt hptop
        · rw [hpsong]
          exact hs
        · rw [hpplayer]
          exact hpl
      show score ≤ r.score
      rw [hrp]
      exact hge
    · rw [List.mem_singleton] at hr
      subst hr
      exact absurd hrt (by simp)
    · rw [List.mem_singleton] at hr
      subst hr
      exact absurd hrt (by simp)
  · intro q hq
    rcases List.mem_append.mp hq with hq | hq
    · obtain ⟨t, ht, hts, htp, htt⟩ := hex q hq
      exact ⟨t, List.mem_append.mpr (Or.inl ht), hts, htp, htt⟩
    · rw [List.mem_singleton] at hq
      refine ⟨p, List.mem_append.mpr (Or.inl hp), ?_, ?_, hptop⟩
      · rw [hq, hpsong]
      · rw [hq, hpplayer]

/-- `create`, branch that beats the previous top: the previous top is demoted
and the appended row becomes the pair's unique top. -/
theorem inv_demote_append {db : List ScoreRow} {song player : Nat} {score : Int}
    {c pn : String} {p : ScoreRow} (hInv : Inv db) (hp : p ∈ db)
    (hps : matches_top song player p = true) (hlt : p.score < score) :
    Inv (db.map (demoteIfPk p.pk)
      ++ [⟨db.length, song, player, score, db.length, c, pn, true⟩]) := by
  obtain ⟨hpw, hblt, hone, hmax, hex⟩ := hInv
  obtain ⟨hpsong, hpplayer, hptop⟩ := matches_top_iff.mp hps
  have hmemf : ∀ q' ∈ db.map (demoteIfPk p.pk),
      q' = { p with is_top := false } ∨ (q' ∈ db ∧ q' ≠ p) := by
    intro q' hq'
    obtain ⟨q, hq, hfq⟩ := List.mem_map.mp hq'
    rcases demote_cases hpw hp hq with ⟨hqp, heq⟩ | ⟨hqp, heq⟩
    · left
      rw [← hfq, heq]
    · right
      rw [← hfq, heq]
      exact ⟨hq, hqp⟩
  have hkeep : ∀ t ∈ db, t ≠ p → t ∈ db.map (demoteIfPk p.pk) := by
    intro t ht htp
    rcases demote_cases hpw hp ht with ⟨h1, _⟩ | ⟨_, h2⟩
    · exact absurd h1 htp
    · exact List.mem_map.mpr ⟨t, ht, h2⟩
  refine ⟨?_, ?_, ?_, ?_, ?_⟩
  · rw [List.pairwise_append]
    refine ⟨?_, List.pairwise_singleton _ _, ?_⟩
    · rw [List.pairwise_map]
      exact hpw.imp fun h => by
        rw [demoteIfPk_pk, demoteIfPk_pk]
        exact h
    · intro a ha b hb
      rw [List.mem_singleton] at hb
      subst hb
      obtain ⟨q, hq, hfq⟩ := List.mem_map.mp ha
      intro h
      have hlt' : a.pk < db.length := by
        rw [← hfq, demoteIfPk_pk]
        exact hblt q hq
      simp only [h] at hlt'
      exact absurd hlt' (lt_irrefl _)
  · intro r hr
    have hlen : (db.map (demoteIfPk p.pk)
        ++ [(⟨db.length, song, player, score, db.length, c, pn, true⟩ : ScoreRow)]).length
          = db.length + 1 := by simp
    rcases List.mem_append.mp hr with hr | hr
    · obtain ⟨q, hq, hfq⟩ := List.mem_map.mp hr
      rw [hlen, ← hfq, demoteIfPk_pk]
      exact Nat.lt_succ_of_lt (hblt q hq)
    · rw [List.mem_singleton] at hr
      subst hr
      rw [hlen]
      exact Nat.lt_succ_self _
  · intro r hr q hq hs hpl hrt hqt
    rcases List.mem_append.mp hr with hr | hr <;> rcases List.mem_append.mp hq with hq | hq
    · rcases hmemf r hr with hdp | ⟨hrdb, hrne⟩
      · rw [hdp] at hrt
        exact absurd hrt (by simp)
      · rcases hmemf q hq with hdq | ⟨hqdb, hqne⟩
        · rw [hdq] at hqt
          exact absurd hqt (by simp)
        · exact hone r hrdb q hqdb hs hpl hrt hqt
    · rw [List.mem_singleton] at hq
      subst hq
      rcases hmemf r hr with hdp | ⟨hrdb, hrne⟩
      · rw [hdp] at hrt
        exact absurd hrt (by simp)
      · refine absurd (hone r hrdb p hp ?_ ?_ hrt hptop) hrne
        · rw [hpsong]
          exact hs
        · rw [hpplayer]
          exact hpl
    · rw [List.mem_singleton] at hr
      subst hr
      rcases hmemf q hq with hdq | ⟨hqdb, hqne⟩
      · rw [hdq] at hqt
        exact absurd hqt (by simp)
      · refine absurd (hone q hqdb p hp ?_ ?_ hqt hptop).symm (fun h => hqne h.symm)
        · rw [hpsong]
          exact hs.symm
        · rw [hpplayer]
          exact hpl.symm
    · rw [List.mem_singleton] at hr hq
      rw [hr, hq]
  · intro r hr q hq hs hpl hrt
    rcases List.mem_append.mp hr with hr | hr <;> rcases List.mem_append.mp hq with hq | hq
    · rcases hmemf r hr with hdp | ⟨hrdb, hrne⟩
      · rw [hdp] at hrt
        exact absurd hrt (by simp)
      · rcases hmemf q hq with hdq | ⟨hqdb, hqne⟩
        · have hq1 : q.score = p.score := by
            rw [hdq]
          have hs1 : r.song = p.song := by
            rw [hs, hdq]
          have hp1 : r.player = p.player := by
            rw [hpl, hdq]
          rw [hq1]
          exact hmax r hrdb p hp hs1 hp1 hrt
        · exact hmax r hrdb q hqdb hs hpl hrt
    · rw [List.mem_singleton] at hq
      subst hq
      rcases hmemf r hr with hdp | ⟨hrdb, hrne⟩
      · rw [hdp] at hrt
        exact absurd hrt (by simp)
      · refine absurd (hone r hrdb p hp ?_ ?_ hrt hptop) hrne
        · rw [hpsong]
          exact hs
        · rw [hpplayer]
          exact hpl
    · rw [List.mem_singleton] at hr
      subst hr
      rcases hmemf q hq with hdq | ⟨hqdb, hqne⟩
      · have hq1 : q.score = p.score := by
          rw [hdq]
        show q.score ≤ score
        rw [hq1]
        exact le_of_lt hlt
      · have hs1 : p.song = q.song := by
          rw [hpsong]
          exact hs
        have hp1 : p.player = q.player := by
          rw [hpplayer]
          exact hpl
        show q.score ≤ score
        exact le_of_lt (lt_of_le_of_lt (hmax p hp q hqdb hs1 hp1 hptop) hlt)
    · rw [List.mem_singleton] at hr hq
      rw [hq, hr]
  · intro q hq
    rcases List.mem_append.mp hq with hq | hq
    · rcases hmemf q hq with hdq | ⟨hqdb, hqne⟩
      · refine ⟨⟨db.length, song, player, score, db.length, c, pn, true⟩,
          List.mem_append.mpr (Or.inr (List.mem_singleton.mpr rfl)), ?_, ?_, rfl⟩
        · rw [hdq]
          show song = p.song
          rw [hpsong]
        · rw [hdq]
          show player = p.player
          rw [hpplayer]
      · obtain ⟨t, ht, hts, htp, htt⟩ := hex q hqdb
        by_cases htpq : t = p
        · refine ⟨⟨db.length, song, player, score, db.length, c, pn, true⟩,
            List.mem_append.mpr (Or.inr (List.mem_singleton.mpr rfl)), ?_, ?_, rfl⟩
          · show song = q.song
            rw [← hpsong, ← hts, htpq]
          · show player = q.player
            rw [← hpplayer, ← htp, htpq]
        · exact ⟨t, List.mem_append.mpr (Or.inl (hkeep t ht htpq)), hts, htp, htt⟩
    · rw [List.mem_singleton] at hq
      refine ⟨⟨db.length, song, player, score, db.length, c, pn, true⟩,
        List.mem_append.mpr (Or.inr (List.mem_singleton.mpr rfl)), ?_, ?_, rfl⟩
      · rw [hq]
      · rw [hq]

theorem create_of_none {db : List ScoreRow} {song player : Nat} {score : Int}
    {c pn : String} (h : db.find? (matches_top song player) = none) :
    create db song player score c pn =
      db ++ [⟨db.length, song, player, score, db.length, c, pn, true⟩] := by
  simp [create, h]

theorem create_of_some_lt {db : List ScoreRow} {song player : Nat} {score : Int}
    {c pn : String} {p : ScoreRow} (h : db.find? (matches_top song player) = some p)
    (hlt : p.score < score) :
    create db song player score c pn =
      db.map (demoteIfPk p.pk)
        ++ [⟨db.length, song, player, score, db.length, c, pn, true⟩] := by
  simp [create, h, hlt]

theorem create_of_some_ge {db : List ScoreRow} {song player : Nat} {score : Int}
    {c pn : String} {p : ScoreRow} (h : db.find? (matches_top song player) = some p)
    (hge : ¬ p.score < score) :
    create db song player score c pn =
      db ++ [⟨db.length, song, player, score, db.length, c, pn, false⟩] := by
  simp [create, h, hge]

/-- `ScoreManager.create` preserves the table invariant. -/
theorem inv_create {db : List ScoreRow} (hInv : Inv db) (song player : Nat)
    (score : Int) (c pn : String) : Inv (create db song player score c pn) := by
  cases hfind : db.find? (matches_top song player) with
  | none =>
    rw [create_of_none hfind]
    refine inv_append_top hInv ?_
    intro r hr
    exact List.find?_eq_none.mp hfind r hr
  | some p =>
    have hp : p ∈ db := List.mem_of_find?_eq_some hfind
    have hps : matches_top song player p = true := List.find?_some hfind
    by_cases hlt : p.score < score
    · rw [create_of_some_lt hfind hlt]
      exact inv_demote_append hInv hp hps hlt
    · rw [create_of_some_ge hfind hlt]
      exact inv_append_nontop hInv hp hps (le_of_not_lt hlt)

theorem inv_nil : Inv [] := by
  refine ⟨List.Pairwise.nil, ?_, ?_, ?_, ?_⟩ <;> intro r hr <;> exact absurd hr (List.not_mem_nil r)

/-- Every table reachable from the empty table through `ScoreManager.create`
satisfies the invariant. -/
theorem inv_runCreates (subs : List Submission) : Inv (runCreates subs) := by
  suffices h : ∀ db, Inv db → Inv (subs.foldl
      (fun db s => create db s.song s.player s.score s.comment s.profile_name) db) from
    h [] inv_nil
  induction subs with
  | nil => intro db hdb; exact hdb
  | cons x subs ih =>
    intro db hdb
    rw [List.foldl_cons]
    exact ih _ (inv_create hdb x.song x.player x.score x.comment x.profile_name)

/-! ### Correspondence between table rows and submissions, per pair -/

/-- The score values of the (song, player) pair's rows, in table order. -/
def pairVals (db : List ScoreRow) (song player : Nat) : List Int :=
  (pairScores db song player).map fun r => r.score

theorem pairVals_append (db1 db2 : List ScoreRow) (s p : Nat) :
    pairVals (db1 ++ db2) s p = pairVals db1 s p ++ pairVals db2 s p := by
  simp [pairVals, pairScores, List.filter_append]

theorem pairVals_map_demote (db : List ScoreRow) (k s p : Nat) :
    pairVals (db.map (demoteIfPk k)) s p = pairVals db s p := by
  induction db with
  | nil => rfl
  | cons r db ih =>
    unfold pairVals pairScores at *
    simp only [List.map_cons, List.filter_cons, demoteIfPk_song, demoteIfPk_player]
    split
    · simp only [List.map_cons, demoteIfPk_score]
      rw [ih]
    · exact ih

theorem pairVals_new (n d : Nat) (song player : Nat) (score : Int) (c pn : String)
    (b : Bool) (s p : Nat) :
    pairVals [⟨n, song, player, score, d, c, pn, b⟩] s p =
      if song = s ∧ player = p then [score] else [] := by
  by_cases h1 : song = s <;> by_cases h2 : player = p <;>
    simp [pairVals, pairScores, h1, h2]

theorem create_pairVals (db : List ScoreRow) (song player : Nat) (score : Int)
    (c pn : String) (s p : Nat) :
    pairVals (create db song player score c pn) s p =
      pairVals db s p ++ (if song = s ∧ player = p then [score] else []) := by
  cases hfind : db.find? (matches_top song player) with
  | none =>
    rw [create_of_none hfind, pairVals_append, pairVals_new]
  | some q =>
    by_cases hlt : q.score < score
    · rw [create_of_some_lt hfind hlt, pairVals_append, pairVals_new, pairVals_map_demote]
    · rw [create_of_some_ge hfind hlt, pairVals_append, pairVals_new]

theorem submittedScores_cons (x : Submission) (subs : List Submission) (s p : Nat) :
    submittedScores (x :: subs) s p =
      (if x.song = s ∧ x.player = p then [x.score] else []) ++ submittedScores subs s p := by
  by_cases h1 : x.song = s <;> by_cases h2 : x.player = p <;>
    simp [submittedScores, List.filter_cons, h1, h2]

/-- The score values stored for a (song, player) pair are exactly the scores
submitted for that pair, in order. -/
theorem runCreates_pairVals (subs : List Submission) (s p : Nat) :
    pairVals (runCreates subs) s p = submittedScores subs s p := by
  suffices h : ∀ db, pairVals (subs.foldl
      (fun db x => create db x.song x.player x.score x.comment x.profile_name) db) s p =
      pairVals db s p ++ submittedScores subs s p by
    have := h []
    simpa [runCreates, pairVals, pairScores, submittedScores] using this
  induction subs with
  | nil => intro db; simp [submittedScores]
  | cons x subs ih =>
    intro db
    rw [List.foldl_cons, ih, create_pairVals, submittedScores_cons, List.append_assoc]

theorem length_le_one_of_pk_distinct {l : List ScoreRow}
    (hpw : List.Pairwise (fun r q => r.pk ≠ q.pk) l)
    (hall : ∀ a ∈ l, ∀ b ∈ l, a = b) : l.length ≤ 1 := by
  match l with
  | [] => exact Nat.zero_le 1
  | [a] => exact le_refl 1
  | a :: b :: t =>
    have hab : a = b := hall a (by simp) b (by simp)
    have h := (List.pairwise_cons.mp hpw).1 b (by simp)
    exact absurd (congrArg ScoreRow.pk hab) h

/-- C1: over any sequence of submissions processed by `ScoreManager.create`,
each (song, player) pair has at most one top-flagged Score row, and that row's
score equals the maximum score value among all submissions made so far for the
pair: it is one of the submitted values and bounds all of them. -/
theorem claim_C1 (subs : List Submission) (song player : Nat) :
    (topScores (runCreates subs) song player).length ≤ 1 ∧
    ∀ r ∈ topScores (runCreates subs) song player,
      r.score ∈ submittedScores subs song player ∧
      ∀ v ∈ submittedScores subs song player, v ≤ r.score := by
  obtain ⟨hpw, hblt, hone, hmax, hex⟩ := inv_runCreates subs
  constructor
  · refine length_le_one_of_pk_distinct (List.Pairwise.sublist (List.filter_sublist _) hpw) ?_
    intro a ha b hb
    obtain ⟨ha1, ha2⟩ := List.mem_filter.mp ha
    obtain ⟨hb1, hb2⟩ := List.mem_filter.mp hb
    obtain ⟨has, hap, hat⟩ := matches_top_iff.mp ha2
    obtain ⟨hbs, hbp, hbt⟩ := matches_top_iff.mp hb2
    exact hone a ha1 b hb1 (has.trans hbs.symm) (hap.trans hbp.symm) hat hbt
  · intro r hr
    obtain ⟨hr1, hr2⟩ := List.mem_filter.mp hr
    obtain ⟨hrs, hrp, hrt⟩ := matches_top_iff.mp hr2
    have hrpair : r ∈ pairScores (runCreates subs) song player :=
      List.mem_filter.mpr ⟨hr1, by simp [hrs, hrp]⟩
    constructor
    · rw [← runCreates_pairVals]
      exact List.mem_map.mpr ⟨r, hrpair, rfl⟩
    · intro v hv
      rw [← runCreates_pairVals] at hv
      obtain ⟨q, hq, hqv⟩ := List.mem_map.mp hv
      obtain ⟨hq1, hq2⟩ := List.mem_filter.mp hq
      simp only [Bool.and_eq_true, beq_iff_eq] at hq2
      rw [← hqv]
      exact hmax r hr1 q hq1 (hrs.trans hq2.1.symm) (hrp.trans hq2.2.symm) hrt

theorem claim_C1_witness :
    (topScores (runCreates [⟨0, 0, 5, "", ""⟩, ⟨0, 0, 7, "", ""⟩]) 0 0).length ≤ 1 ∧
      ((7 : Int) ∈ submittedScores [⟨0, 0, 5, "", ""⟩, ⟨0, 0, 7, "", ""⟩] 0 0 ∧
        ∀ v ∈ submittedScores [⟨0, 0, 5, "", ""⟩, ⟨0, 0, 7, "", ""⟩] 0 0, v ≤ (7 : Int)) :=
  ⟨(claim_C1 [⟨0, 0, 5, "", ""⟩, ⟨0, 0, 7, "", ""⟩] 0 0).1,
    (claim_C1 [⟨0, 0, 5, "", ""⟩, ⟨0, 0, 7, "", ""⟩] 0 0).2
      ⟨1, 0, 0, 7, 1, "", "", true⟩ (by decide)⟩

/-- C3: submitting a score less than or equal to the pair's current top keeps
the table rows unchanged (so the existing top row keeps `is_top = true`, also
on ties, where the first-submitted score wins) and stores the new submission
with `is_top = false`. -/
theorem claim_C3 (db : List ScoreRow) (song player : Nat) (score : Int)
    (c pn : String) (p : ScoreRow) (hInv : Inv db) (hp : p ∈ db)
    (hps : matches_top song player p = true) (hle : score ≤ p.score) :
    create db song player score c pn =
      db ++ [⟨db.length, song, player, score, db.length, c, pn, false⟩] ∧
    p ∈ create db song player score c pn ∧ p.is_top = true := by
  obtain ⟨g1, g2, g3⟩ := matches_top_iff.mp hps
  have heq : create db song player score c pn =
      db ++ [⟨db.length, song, player, score, db.length, c, pn, false⟩] := by
    cases hfind : db.find? (matches_top song player) with
    | none =>
      exact absurd hps (List.find?_eq_none.mp hfind p hp)
    | some q =>
      have hq : q ∈ db := List.mem_of_find?_eq_some hfind
      have hqs := List.find?_some hfind
      obtain ⟨h1, h2, h3⟩ := matches_top_iff.mp hqs
      have hqp : q = p := hInv.2.2.1 q hq p hp (h1.trans g1.symm) (h2.trans g2.symm) h3 g3
      refine create_of_some_ge hfind ?_
      rw [hqp]
      exact not_lt.mpr hle
  refine ⟨heq, ?_, g3⟩
  rw [heq]
  exact List.mem_append.mpr (Or.inl hp)

theorem claim_C3_witness :
    Inv [(⟨0, 0, 0, 10, 0, "", "", true⟩ : ScoreRow)] ∧
    (⟨0, 0, 0, 10, 0, "", "", true⟩ : ScoreRow) ∈ [(⟨0, 0, 0, 10, 0, "", "", true⟩ : ScoreRow)] ∧
    matches_top 0 0 ⟨0, 0, 0, 10, 0, "", "", true⟩ = true ∧
    (10 : Int) ≤ (⟨0, 0, 0, 10, 0, "", "", true⟩ : ScoreRow).score ∧
    (create [⟨0, 0, 0, 10, 0, "", "", true⟩] 0 0 10 "" "" =
        [⟨0, 0, 0, 10, 0, "", "", true⟩] ++ [⟨1, 0, 0, 10, 1, "", "", false⟩] ∧
      (⟨0, 0, 0, 10, 0, "", "", true⟩ : ScoreRow) ∈ create [⟨0, 0, 0, 10, 0, "", "", true⟩] 0 0 10 "" "" ∧
      (⟨0, 0, 0, 10, 0, "", "", true⟩ : ScoreRow).is_top = true) :=
  ⟨by decide, by decide, by decide, by decide,
    claim_C3 [⟨0, 0, 0, 10, 0, "", "", true⟩] 0 0 10 "" "" ⟨0, 0, 0, 10, 0, "", "", true⟩
      (by decide) (by decide) (by decide) (by decide)⟩

/-! ### Rank (claim C4) -/

theorem filter_length_le_of_imp {α : Type} {p q : α → Bool}
    (h : ∀ x, p x = true → q x = true) :
    ∀ l : List α, (l.filter p).length ≤ (l.filter q).length := by
  intro l
  induction l with
  | nil => exact le_refl 0
  | cons x xs ih =>
    rw [List.filter_cons, List.filter_cons]
    cases hp : p x with
    | true =>
      rw [h x hp]
      simpa using ih
    | false =>
      cases hq : q x with
      | true => simpa using Nat.le_succ_of_le ih
      | false => simpa using ih

theorem filter_length_lt_of_imp {α : Type} {p q : α → Bool}
    (h : ∀ x, p x = true → q x = true) {l : List α} {a : α}
    (ha : a ∈ l) (hqa : q a = true) (hpa : p a = false) :
    (l.filter p).length < (l.filter q).length := by
  induction l with
  | nil => exact absurd ha (List.not_mem_nil a)
  | cons x xs ih =>
    rw [List.filter_cons, List.filter_cons]
    rcases List.mem_cons.mp ha with rfl | hmem
    · rw [hpa, hqa]
      simpa using Nat.lt_succ_of_le (filter_length_le_of_imp h xs)
    · cases hp : p x with
      | true =>
        rw [h x hp]
        simpa using Nat.succ_lt_succ (ih hmem)
      | false =>
        cases hq : q x with
        | true => simpa using Nat.lt_succ_of_lt (ih hmem)
        | false => simpa using ih hmem

/-- C4: `Score.rank` equals one plus the number of top-flagged Score rows of
the same song with strictly greater score value; consequently rank is strictly
monotone among top rows of a fixed song and tied top rows get equal rank. -/
theorem claim_C4 (db : List ScoreRow) (a b : ScoreRow) (ha : a ∈ db)
    (hat : a.is_top = true) (hbt : b.is_top = true) (hsong : a.song = b.song) :
    rank db a = db.countP
        (fun q => decide (q.song = a.song ∧ q.is_top = true ∧ a.score < q.score)) + 1 ∧
    (b.score < a.score → rank db a < rank db b) ∧
    (a.score = b.score → rank db a = rank db b) := by
  refine ⟨?_, ?_, ?_⟩
  · have hfun : (fun q : ScoreRow => q.song == a.song && q.is_top && decide (a.score < q.score))
        = fun q => decide (q.song = a.song ∧ q.is_top = true ∧ a.score < q.score) := by
      funext q
      by_cases h1 : q.song = a.song <;> by_cases h2 : q.is_top = true <;>
        by_cases h3 : a.score < q.score <;>
        simp [h1, h2, h3]
    unfold rank
    rw [hfun, List.countP_eq_length_filter]
  · intro hba
    unfold rank
    have himp : ∀ x : ScoreRow,
        (x.song == a.song && x.is_top && decide (a.score < x.score)) = true →
        (x.song == b.song && x.is_top && decide (b.score < x.score)) = true := by
      intro x hx
      simp only [Bool.and_eq_true, beq_iff_eq, decide_eq_true_eq] at hx ⊢
      exact ⟨⟨hsong ▸ hx.1.1, hx.1.2⟩, lt_trans hba hx.2⟩
    have hqa : (a.song == b.song && a.is_top && decide (b.score < a.score)) = true := by
      simp [hsong, hat, hba]
    have hpa : (a.song == a.song && a.is_top && decide (a.score < a.score)) = false := by
      simp
    exact Nat.add_lt_add_right (filter_length_lt_of_imp himp ha hqa hpa) 1
  · intro heq
    unfold rank
    have hfun : (fun q : ScoreRow => q.song == a.song && q.is_top && decide (a.score < q.score))
        = fun q : ScoreRow => q.song == b.song && q.is_top && decide (b.score < q.score) := by
      funext q
      rw [hsong, heq]
    rw [hfun]

theorem claim_C4_witness :
    (⟨0, 0, 1, 100, 0, "", "", true⟩ : ScoreRow) ∈
        [(⟨0, 0, 1, 100, 0, "", "", true⟩ : ScoreRow), ⟨1, 0, 2, 90, 1, "", "", true⟩] ∧
    (⟨0, 0, 1, 100, 0, "", "", true⟩ : ScoreRow).is_top = true ∧
    (⟨1, 0, 2, 90, 1, "", "", true⟩ : ScoreRow).is_top = true ∧
    (⟨0, 0, 1, 100, 0, "", "", true⟩ : ScoreRow).song = (⟨1, 0, 2, 90, 1, "", "", true⟩ : ScoreRow).song ∧
    (rank [(⟨0, 0, 1, 100, 0, "", "", true⟩ : ScoreRow), ⟨1, 0, 2, 90, 1, "", "", true⟩]
          ⟨0, 0, 1, 100, 0, "", "", true⟩ =
        List.countP (fun q => decide (q.song = 0 ∧ q.is_top = true ∧ (100 : Int) < q.score))
          [(⟨0, 0, 1, 100, 0, "", "", true⟩ : ScoreRow), ⟨1, 0, 2, 90, 1, "", "", true⟩] + 1 ∧
      ((90 : Int) < 100 →
        rank [(⟨0, 0, 1, 100, 0, "", "", true⟩ : ScoreRow), ⟨1, 0, 2, 90, 1, "", "", true⟩]
            ⟨0, 0, 1, 100, 0, "", "", true⟩ <
          rank [(⟨0, 0, 1, 100, 0, "", "", true⟩ : ScoreRow), ⟨1, 0, 2, 90, 1, "", "", true⟩]
            ⟨1, 0, 2, 90, 1, "", "", true⟩) ∧
      ((100 : Int) = 90 →
        rank [(⟨0, 0, 1, 100, 0, "", "", true⟩ : ScoreRow), ⟨1, 0, 2, 90, 1, "", "", true⟩]
            ⟨0, 0, 1, 100, 0, "", "", true⟩ =
          rank [(⟨0, 0, 1, 100, 0, "", "", true⟩ : ScoreRow), ⟨1, 0, 2, 90, 1, "", "", true⟩]
            ⟨1, 0, 2, 90, 1, "", "", true⟩)) :=
  ⟨by decide, by decide, by decide, by decide,
    claim_C4 [⟨0, 0, 1, 100, 0, "", "", true⟩, ⟨1, 0, 2, 90, 1, "", "", true⟩]
      ⟨0, 0, 1, 100, 0, "", "", true⟩ ⟨1, 0, 2, 90, 1, "", "", true⟩
      (by decide) (by decide) (by decide) (by decide)⟩

/-! ### Leaderboard shape (claims C2, C5, C6) -/

theorem rival_highscores_length_le (db : List ScoreRow) (song : Nat) (p : PlayerRow) :
    (get_rival_highscores db song p).length ≤ 3 := by
  unfold get_rival_highscores MAX_LEADERBOARD_RIVALS
  rw [List.length_map, List.length_take]
  exact min_le_left _ _

theorem leaderboard_pre_length_le (db : List ScoreRow) (players : List PlayerRow)
    (song : Nat) (viewer : Option PlayerRow) :
    (leaderboard_pre db players song viewer).1.length ≤ 4 := by
  cases viewer with
  | none => simp [leaderboard_pre]
  | some p =>
    have h3 := rival_highscores_length_le db song p
    cases hh : get_highscore db song p.id with
    | none =>
      simp only [leaderboard_pre, hh, List.nil_append, List.length_map]
      omega
    | some x =>
      obtain ⟨rk, s⟩ := x
      simp only [leaderboard_pre, hh, List.singleton_append, List.length_cons, List.length_map]
      omega

theorem get_leaderboard_length_le (db : List ScoreRow) (players : List PlayerRow)
    (song n : Nat) (viewer : Option PlayerRow) :
    (get_leaderboard db players song n viewer).length ≤ max (min n 50) 4 := by
  simp only [get_leaderboard]
  rw [(List.perm_insertionSort entryOrder _).length_eq, List.length_append,
    List.length_map, List.length_take]
  have h4 := leaderboard_pre_length_le db players song viewer
  have hmin := Nat.min_le_left
    (min MAX_LEADERBOARD_ENTRIES n - (leaderboard_pre db players song viewer).1.length)
    (List.insertionSort rowOrder
      (db.filter fun r => r.song == song && r.is_top &&
        !((leaderboard_pre db players song viewer).2.contains r.pk))).length
  unfold MAX_LEADERBOARD_ENTRIES at *
  omega

theorem get_leaderboard_sorted (db : List ScoreRow) (players : List PlayerRow)
    (song n : Nat) (viewer : Option PlayerRow) :
    List.Pairwise (fun a b : LeaderboardEntry => b.score ≤ a.score)
      (get_leaderboard db players song n viewer) := by
  unfold get_leaderboard
  exact List.sorted_insertionSort entryOrder _

/-- C2 counterexample: one top score by player 7 on song 0, player 7 itself
viewing, requested count 0.  The pre-seeded self entry makes the result have
one entry, exceeding min(0, 50) = 0, so the claimed bound of min(N, 50)
entries fails. -/
theorem claim_C2_counterexample :
    ¬ ((get_leaderboard [⟨0, 0, 7, 100, 0, "", "", true⟩] [⟨7, "k", "AB", none, []⟩] 0 0
        (some ⟨7, "k", "AB", none, []⟩)).length ≤ min 0 50) := by
  decide

/-- C2 (amended): `get_leaderboard` with requested count N returns at most
max(min(N, 50), 4) entries — the pre-seeded self entry and up to three rival
entries can exceed a small N — and the returned sequence is sorted by score
descending. -/
theorem claim_C2_amended (db : List ScoreRow) (players : List PlayerRow)
    (song n : Nat) (viewer : Option PlayerRow) :
    (get_leaderboard db players song n viewer).length ≤ max (min n 50) 4 ∧
    List.Pairwise (fun a b : LeaderboardEntry => b.score ≤ a.score)
      (get_leaderboard db players song n viewer) :=
  ⟨get_leaderboard_length_le db players song n viewer,
    get_leaderboard_sorted db players song n viewer⟩

theorem make_leaderboard_entry_isSelf (players : List PlayerRow) (rk : Nat)
    (s : ScoreRow) (ir isf : Bool) :
    (make_leaderboard_entry players rk s ir isf).isSelf = isf := rfl

theorem make_leaderboard_entry_isRival (players : List PlayerRow) (rk : Nat)
    (s : ScoreRow) (ir isf : Bool) :
    (make_leaderboard_entry players rk s ir isf).isRival = ir := rfl

theorem make_leaderboard_entry_score (players : List PlayerRow) (rk : Nat)
    (s : ScoreRow) (ir isf : Bool) :
    (make_leaderboard_entry players rk s ir isf).score = s.score := rfl

/-- The returned leaderboard is a permutation of the pre-seeded entries
followed by the plain top-N entries. -/
theorem get_leaderboard_perm (db : List ScoreRow) (players : List PlayerRow)
    (song n : Nat) (viewer : Option PlayerRow) :
    (get_leaderboard db players song n viewer).Perm
      ((leaderboard_pre db players song viewer).1 ++
        (((List.insertionSort rowOrder
          (db.filter fun r => r.song == song && r.is_top &&
            !((leaderboard_pre db players song viewer).2.contains r.pk))).take
          (min MAX_LEADERBOARD_ENTRIES n - (leaderboard_pre db players song viewer).1.length)).map
          fun s => make_leaderboard_entry players (rank db s) s false false)) := by
  simp only [get_leaderboard]
  exact List.perm_insertionSort entryOrder _

/-- The viewing player's unique top row determines `get_highscore`. -/
theorem get_highscore_eq (db : List ScoreRow) (song : Nat) (p : PlayerRow)
    (r : ScoreRow) (hInv : Inv db) (hr : r ∈ db)
    (hmatch : matches_top song p.id r = true) :
    get_highscore db song p.id = some (rank db r, r) := by
  cases hfind : db.find? (matches_top song p.id) with
  | none => exact absurd hmatch (List.find?_eq_none.mp hfind r hr)
  | some q =>
    have hq := List.mem_of_find?_eq_some hfind
    have hqs := List.find?_some hfind
    obtain ⟨h1, h2, h3⟩ := matches_top_iff.mp hqs
    obtain ⟨g1, g2, g3⟩ := matches_top_iff.mp hmatch
    have hqr : q = r := hInv.2.2.1 q hq r hr (h1.trans g1.symm) (h2.trans g2.symm) h3 g3
    unfold get_highscore
    rw [hfind, hqr]

/-- C5: when the viewing player has a top-flagged score for the song, the
returned leaderboard contains exactly one entry marked `isSelf = true`, that
entry carries the player's top score value, and this holds for every requested
count (in particular when the player's score is outside the global top-N
window). -/
theorem claim_C5 (db : List ScoreRow) (players : List PlayerRow) (song n : Nat)
    (p : PlayerRow) (r : ScoreRow) (hInv : Inv db) (hr : r ∈ db)
    (hmatch : matches_top song p.id r = true) :
    (get_leaderboard db players song n (some p)).countP (fun e => e.isSelf) = 1 ∧
    ∀ e ∈ get_leaderboard db players song n (some p),
      e.isSelf = true → e.score = r.score := by
  have hhs := get_highscore_eq db song p r hInv hr hmatch
  have hpre1 : (leaderboard_pre db players song (some p)).1
      = make_leaderboard_entry players (rank db r) r false true ::
        (get_rival_highscores db song p).map
          (fun x => make_leaderboard_entry players x.1 x.2 true false) := by
    simp only [leaderboard_pre, hhs, List.singleton_append]
  have hperm := get_leaderboard_perm db players song n (some p)
  constructor
  · rw [hperm.countP_eq, List.countP_append, hpre1, List.countP_cons]
    simp only [List.countP_map, Function.comp_def, make_leaderboard_entry_isSelf]
    simp [List.countP_false]
  · intro e he hself
    rw [hperm.mem_iff] at he
    rcases List.mem_append.mp he with he | he
    · rw [hpre1] at he
      rcases List.mem_cons.mp he with rfl | he
      · exact make_leaderboard_entry_score players (rank db r) r false true
      · obtain ⟨x, hx, hxe⟩ := List.mem_map.mp he
        rw [← hxe, make_leaderboard_entry_isSelf] at hself
        exact absurd hself (by simp)
    · obtain ⟨s, hs, hse⟩ := List.mem_map.mp he
      rw [← hse, make_leaderboard_entry_isSelf] at hself
      exact absurd hself (by simp)

theorem claim_C5_witness :
    Inv [(⟨0, 0, 7, 100, 0, "", "", true⟩ : ScoreRow)] ∧
    (⟨0, 0, 7, 100, 0, "", "", true⟩ : ScoreRow) ∈ [(⟨0, 0, 7, 100, 0, "", "", true⟩ : ScoreRow)] ∧
    matches_top 0 (⟨7, "k", "AB", none, []⟩ : PlayerRow).id ⟨0, 0, 7, 100, 0, "", "", true⟩ = true ∧
    ((get_leaderboard [⟨0, 0, 7, 100, 0, "", "", true⟩] [⟨7, "k", "AB", none, []⟩] 0 0
        (some ⟨7, "k", "AB", none, []⟩)).countP (fun e => e.isSelf) = 1 ∧
      ∀ e ∈ get_leaderboard [⟨0, 0, 7, 100, 0, "", "", true⟩] [⟨7, "k", "AB", none, []⟩] 0 0
          (some ⟨7, "k", "AB", none, []⟩),
        e.isSelf = true → e.score = (⟨0, 0, 7, 100, 0, "", "", true⟩ : ScoreRow).score) :=
  ⟨by decide, by decide, by decide,
    claim_C5 [⟨0, 0, 7, 100, 0, "", "", true⟩] [⟨7, "k", "AB", none, []⟩] 0 0
      ⟨7, "k", "AB", none, []⟩ ⟨0, 0, 7, 100, 0, "", "", true⟩
      (by decide) (by decide) (by decide)⟩

/-- The rival-marked entries of the returned leaderboard are exactly the
entries built from `get_rival_highscores` (none without a viewing player). -/
theorem countP_isRival_result (db : List ScoreRow) (players : List PlayerRow)
    (song n : Nat) (viewer : Option PlayerRow) :
    (get_leaderboard db players song n viewer).countP (fun e => e.isRival) =
      match viewer with
      | none => 0
      | some p => (get_rival_highscores db song p).length := by
  rw [(get_leaderboard_perm db players song n viewer).countP_eq, List.countP_append]
  have hplain : (((List.insertionSort rowOrder
      (db.filter fun r => r.song == song && r.is_top &&
        !((leaderboard_pre db players song viewer).2.contains r.pk))).take
      (min MAX_LEADERBOARD_ENTRIES n - (leaderboard_pre db players song viewer).1.length)).map
      fun s => make_leaderboard_entry players (rank db s) s false false).countP
      (fun e => e.isRival) = 0 := by
    simp only [List.countP_map, Function.comp_def, make_leaderboard_entry_isRival]
    simp [List.countP_false]
  rw [hplain]
  cases viewer with
  | none => simp [leaderboard_pre]
  | some p =>
    cases hh : get_highscore db song p.id with
    | none =>
      simp only [leaderboard_pre, hh, List.nil_append]
      simp only [List.countP_map, Function.comp_def, make_leaderboard_entry_isRival]
      simp [congrFun List.countP_true]
    | some x =>
      obtain ⟨rk, s⟩ := x
      simp only [leaderboard_pre, hh, List.singleton_append, List.countP_cons,
        make_leaderboard_entry_isRival]
      simp only [List.countP_map, Function.comp_def, make_leaderboard_entry_isRival]
      simp [congrFun List.countP_true]

/-- C6: the returned leaderboard never carries more than three rival-marked
entries; none at all without a viewing player, and none when no rival of the
viewing player has a top-flagged score for the song; and the rival records are
selected from the rivals' top rows of the song in score-descending,
submission-date-descending order, each with its rank. -/
theorem claim_C6 (db : List ScoreRow) (players : List PlayerRow) (song n : Nat)
    (viewer : Option PlayerRow) :
    (get_leaderboard db players song n viewer).countP (fun e => e.isRival) ≤ 3 ∧
    (get_leaderboard db players song n none).countP (fun e => e.isRival) = 0 ∧
    (∀ p, viewer = some p →
      db.filter (fun r => r.is_top && p.rivals.contains r.player && r.song == song) = [] →
      (get_leaderboard db players song n viewer).countP (fun e => e.isRival) = 0) ∧
    (∀ p, List.Pairwise rowOrder ((get_rival_highscores db song p).map Prod.snd) ∧
      ∀ x ∈ get_rival_highscores db song p,
        x.2 ∈ db ∧ x.2.is_top = true ∧ x.2.song = song ∧
          x.2.player ∈ p.rivals ∧ x.1 = rank db x.2) := by
  refine ⟨?_, ?_, ?_, ?_⟩
  · rw [countP_isRival_result]
    cases viewer with
    | none => exact Nat.zero_le 3
    | some p => exact rival_highscores_length_le db song p
  · rw [countP_isRival_result]
  · intro p hp hempty
    subst hp
    rw [countP_isRival_result]
    show (get_rival_highscores db song p).length = 0
    unfold get_rival_highscores
    rw [hempty]
    rfl
  · intro p
    constructor
    · have hsorted := List.sorted_insertionSort rowOrder
        (db.filter fun r => r.is_top && p.rivals.contains r.player && r.song == song)
      unfold get_rival_highscores
      rw [List.map_map]
      have hmapid : (Prod.snd ∘ fun r : ScoreRow => ((rank db r, r) : Nat × ScoreRow)) = id := rfl
      rw [hmapid, List.map_id]
      exact List.Pairwise.sublist (List.take_sublist _ _) hsorted
    · intro x hx
      unfold get_rival_highscores at hx
      obtain ⟨s, hs, hsx⟩ := List.mem_map.mp hx
      have hs2 : s ∈ List.insertionSort rowOrder
          (db.filter fun r => r.is_top && p.rivals.contains r.player && r.song == song) :=
        List.take_subset _ _ hs
      have hs3 : s ∈ db.filter fun r => r.is_top && p.rivals.contains r.player && r.song == song :=
        (List.perm_insertionSort rowOrder _).mem_iff.mp hs2
      obtain ⟨hsdb, hsp⟩ := List.mem_filter.mp hs3
      simp only [Bool.and_eq_true, beq_iff_eq] at hsp
      have hmem : s.player ∈ p.rivals := by
        simpa using hsp.1.2
      rw [← hsx]
      exact ⟨hsdb, hsp.1.1, hsp.2, hmem, rfl⟩

theorem claim_C6_witness :
    (get_leaderboard [⟨0, 0, 7, 100, 0, "", "", true⟩] [⟨7, "k", "AB", none, []⟩] 0 10
      (some ⟨7, "k", "AB", none, []⟩)).countP (fun e => e.isRival) ≤ 3 :=
  (claim_C6 [⟨0, 0, 7, 100, 0, "", "", true⟩] [⟨7, "k", "AB", none, []⟩] 0 10
    (some ⟨7, "k", "AB", none, []⟩)).1

/-! ### Rival validation (claim C7) -/

/-- `validate_rivals` from `models.py` (the `m2m_changed` hook): fires — a
ValidationError is raised — iff the instance's rivals contain exactly one
player carrying the instance's own (unique) API key. -/
def validate_rivals (players : List PlayerRow) (inst : PlayerRow) : Bool :=
  ((inst.rivals.map (findPlayer players)).filter fun q => q.api_key == inst.api_key).length == 1

/-- Modelled from the spec: the rival-mutation operation surrounding the
`validate_rivals` hook (Django's m2m `add` with its `m2m_changed` signals and
enclosing transaction) is not part of the sources under test.  Per the spec, a
self-rivalry attempt is "rejected before any store mutation, surfaced to
caller, no partial state": the hook runs on the pre-mutation and the mutated
relation, and when it raises, the transaction rolls back, returning the
unchanged player row with the error; otherwise the mutated row is kept. -/
def add_rival (players : List PlayerRow) (p : PlayerRow) (rid : Nat) :
    PlayerRow × Option String :=
  if validate_rivals players p then (p, some "You can't be your own rival")
  else
    let p2 : PlayerRow := { p with rivals := p.rivals ++ [rid] }
    if validate_rivals players p2 then (p, some "You can't be your own rival")
    else (p2, none)

/-- C7: a player adding itself as a rival fails with the ValidationError and
the rivals relation afterwards is exactly what it was before (the returned
row is the untouched input row). -/
theorem claim_C7 (players : List PlayerRow) (p : PlayerRow)
    (hlookup : findPlayer players p.id = p)
    (hclean : (p.rivals.map (findPlayer players)).filter
      (fun q => q.api_key == p.api_key) = []) :
    add_rival players p p.id = (p, some "You can't be your own rival") := by
  have h1 : validate_rivals players p = false := by
    unfold validate_rivals
    rw [hclean]
    rfl
  have h2 : validate_rivals players { p with rivals := p.rivals ++ [p.id] } = true := by
    unfold validate_rivals
    simp only [List.map_append, List.filter_append]
    rw [hclean, List.map_singleton, hlookup]
    simp
  simp [add_rival, h1, h2]

theorem claim_C7_witness :
    findPlayer [(⟨7, "k", "AB", none, []⟩ : PlayerRow)] 7 = ⟨7, "k", "AB", none, []⟩ ∧
    ((⟨7, "k", "AB", none, []⟩ : PlayerRow).rivals.map
        (findPlayer [(⟨7, "k", "AB", none, []⟩ : PlayerRow)])).filter
      (fun q => q.api_key == (⟨7, "k", "AB", none, []⟩ : PlayerRow).api_key) = [] ∧
    add_rival [⟨7, "k", "AB", none, []⟩] ⟨7, "k", "AB", none, []⟩ 7 =
      (⟨7, "k", "AB", none, []⟩, some "You can't be your own rival") :=
  ⟨by decide, by decide,
    claim_C7 [⟨7, "k", "AB", none, []⟩] ⟨7, "k", "AB", none, []⟩ (by decide) (by decide)⟩

/-! ### Display name fallback (claim C9) -/

/-- The chart metadata record read from the external chart database. -/
structure ChartInfo where
  artist : String
  artisttranslit : String
  title : String
  titletranslit : String
  subtitle : String
  subtitletranslit : String
  steps_type : String
deriving Repr, DecidableEq

/-- Python `a or b` for strings: the empty string is falsy. -/
def pyOr (a b : String) : String :=
  if a = "" then b else a

/-- `Song.chart_info` from `models.py`: `None` when no chart database is
configured (`settings.BS_CHART_DB_PATH is None`) or when the database has no
record for the hash; the per-hash filesystem lookup is modelled as a function
from hash to optional record. -/
def chart_info (chartDb : Option (String → Option ChartInfo)) (hash : String) :
    Option ChartInfo :=
  match chartDb with
  | none => none
  | some lookup => lookup hash

/-- `Song.display_name` from `models.py`. -/
def display_name (chartDb : Option (String → Option ChartInfo)) (hash : String) : String :=
  match chart_info chartDb hash with
  | none => hash
  | some info =>
    let artist := pyOr info.artisttranslit info.artist
    let title := pyOr info.titletranslit info.title
    let subtitle0 := pyOr info.subtitletranslit info.subtitle
    let subtitle :=
      if subtitle0 = "" then ""
      else if subtitle0.startsWith "(" && subtitle0.endsWith ")" then " " ++ subtitle0
      else " (" ++ subtitle0 ++ ")"
    let base := artist ++ " - " ++ title ++ subtitle
    if info.steps_type = "dance-single" then base
    else base ++ " (" ++ info.steps_type ++ ")"

/-- C9: when the song's hash has no record in the chart metadata database, or
no database is configured — i.e. `chart_info` is absent — the display name is
the raw song hash. -/
theorem claim_C9 (chartDb : Option (String → Option ChartInfo)) (hash : String)
    (h : chart_info chartDb hash = none) :
    display_name chartDb hash = hash := by
  unfold display_name
  rw [h]

theorem claim_C9_witness :
    chart_info none "0123456789abcdef" = none ∧
    display_name none "0123456789abcdef" = "0123456789abcdef" :=
  ⟨rfl, claim_C9 none "0123456789abcdef" rfl⟩

/-! ### API-key derivation (claim C10) -/

/-- `Player.gs_api_key_to_bs_api_key` from `models.py`: the SHA-256 hex digest
of the first 32 characters of the supplied GrooveStats key.  The digest
function itself (Python `hashlib`, an external library) is modelled as an
abstract function parameter; the claim only concerns the truncation. -/
def gs_api_key_to_bs_api_key (sha256hex : String → String) (gs_api_key : String) : String :=
  sha256hex (gs_api_key.take 32)

/-- `Player.get_by_gs_api_key` from `models.py`:
`Player.objects.filter(api_key=...).first()`. -/
def get_by_gs_api_key (sha256hex : String → String) (players : List PlayerRow)
    (gs_api_key : String) : Option PlayerRow :=
  players.find? fun q => q.api_key == gs_api_key_to_bs_api_key sha256hex gs_api_key

/-- C10: the derived API key depends only on the first 32 characters of the
supplied GrooveStats key, so two keys with the same 32-character prefix derive
the same key and resolve to the same player. -/
theorem claim_C10 (sha256hex : String → String) (players : List PlayerRow)
    (k1 k2 : String) (h : k1.take 32 = k2.take 32) :
    gs_api_key_to_bs_api_key sha256hex k1 = gs_api_key_to_bs_api_key sha256hex k2 ∧
    get_by_gs_api_key sha256hex players k1 = get_by_gs_api_key sha256hex players k2 := by
  have h1 : gs_api_key_to_bs_api_key sha256hex k1 = gs_api_key_to_bs_api_key sha256hex k2 :=
    congrArg sha256hex h
  refine ⟨h1, ?_⟩
  unfold get_by_gs_api_key
  rw [h1]

set_option maxRecDepth 4000 in
theorem claim_C10_witness :
    ("aaaaaaaaaaaaaaaaaaaaaaaaaaaaaaaaXY".take 32
        = "aaaaaaaaaaaaaaaaaaaaaaaaaaaaaaaaZW".take 32) ∧
    (gs_api_key_to_bs_api_key (fun s => s) "aaaaaaaaaaaaaaaaaaaaaaaaaaaaaaaaXY"
        = gs_api_key_to_bs_api_key (fun s => s) "aaaaaaaaaaaaaaaaaaaaaaaaaaaaaaaaZW" ∧
      get_by_gs_api_key (fun s => s) [] "aaaaaaaaaaaaaaaaaaaaaaaaaaaaaaaaXY"
        = get_by_gs_api_key (fun s => s) [] "aaaaaaaaaaaaaaaaaaaaaaaaaaaaaaaaZW") :=
  ⟨by decide,
    claim_C10 (fun s => s) [] "aaaaaaaaaaaaaaaaaaaaaaaaaaaaaaaaXY"
      "aaaaaaaaaaaaaaaaaaaaaaaaaaaaaaaaZW" (by decide)⟩

end BoogieStats
